import Mathlib

/-!
Verification of the seismic-data ingestion pipeline (`seismic_data.py`).

The embedding models, from the source:
* the Trace/Stream data model produced by the reader (`read_seismic_data`),
* the normalization calls (`stream.detrend(type='linear')` then
  `stream.taper(max_percentage=0.05, type='hann')`),
* the SQLite bulk load (`insert_seismic_data_into_db`): schema creation,
  sorted iteration over file names, per-trace batches, per-trace commits,
* the helicorder axis allocation (`create_helicorder`),
* the station map (`create_map`): station collection, per-station lookup
  with local error recovery, and marker selection.

Sample amplitudes and timestamps are embedded as rationals; machine floats
are modelled exactly.  The bodies of `detrend`/`taper` live in the external
obspy library, so they are modelled from the specification of the
Normalization Stage; storage-engine facts (SQLite type affinity) and the
subplot-allocation contract of matplotlib are modelled from those systems'
documented behavior.
-/

namespace SeismicData

/-- Trace metadata, the fields of `trace.stats` used by the source:
network/station/location/channel codes, start time (epoch seconds), and
sampling rate (Hz). -/
structure Stats where
  network : String
  station : String
  location : String
  channel : String
  starttime : ℚ
  sampling_rate : ℚ
  deriving Repr, DecidableEq

/-- One continuous, uniformly-sampled channel recording: metadata plus the
ordered amplitude sequence (`trace.data`). -/
structure Trace where
  stats : Stats
  data : List ℚ
  deriving Repr, DecidableEq

/-- A Stream is the list of Traces decoded from one source file. -/
abbrev Stream := List Trace

/-- The `streams` mapping built by `read_seismic_data`: file name to Stream.
Embedded as an association list; the Python dict guarantees distinct keys,
stated as a `Nodup` hypothesis where a theorem needs it. -/
abbrev Streams := List (String × Stream)

/-- Timestamps reported by `trace.times('timestamp')`: sample `i` is at
`starttime + i / sampling_rate` epoch seconds. -/
def traceTimes (t : Trace) : List ℚ :=
  List.map (fun i : ℕ => t.stats.starttime + (i : ℚ) / t.stats.sampling_rate)
    (List.range t.data.length)

/-- Modelled from the spec: `stream.detrend(type='linear')` is implemented by
the external obspy library, whose body is not part of this repository.  Per
§4.2 it fits and subtracts the ordinary-least-squares line over sample index
versus amplitude, and a trace of length 1 is a no-op (undefined slope). -/
def detrendData (xs : List ℚ) : List ℚ :=
  if xs.length ≤ 1 then xs
  else
    let n : ℚ := xs.length
    let idx : List ℚ := List.map (fun i : ℕ => (i : ℚ)) (List.range xs.length)
    let sx := xs.sum
    let si := idx.sum
    let sii := (idx.map (fun i => i * i)).sum
    let six := (List.zipWith (fun i x => i * x) idx xs).sum
    let slope := (n * six - si * sx) / (n * sii - si * si)
    let intercept := (sx - slope * si) / n
    List.zipWith (fun i x => x - (intercept + slope * i)) idx xs

/-- Half-window sample count of the taper: `int(max_percentage * npts)` with
`max_percentage = 0.05`, the argument passed at the call site. -/
def taperLen (n : ℕ) : ℕ := n * 5 / 100

/-- Modelled from the spec: the taper multiplies the amplitude at index `i`
by a window factor that ramps from 0 at the very first/last sample to 1 in
the interior, over the leading and trailing `taperLen n` samples.  The exact
Hann cosine ramp values are computed by the external obspy library in
floating point; no claim verified here depends on their pointwise values, so
the ramp is a parameter.  With `max_percentage = 0.05` the two ramp regions
never overlap (`2 * taperLen n ≤ n`). -/
def taperFactors (ramp : ℕ → ℚ) (n : ℕ) : List ℚ :=
  let w := taperLen n
  List.map (fun i : ℕ =>
    if i < w then ramp i
    else if n - w ≤ i then ramp (n - 1 - i)
    else (1 : ℚ)) (List.range n)

/-- Modelled from the spec: elementwise application of the taper window to
the amplitude sequence. -/
def taperData (ramp : ℕ → ℚ) (xs : List ℚ) : List ℚ :=
  List.zipWith (fun x f => x * f) xs (taperFactors ramp xs.length)

/-- The call `stream.detrend(type='linear')`: rewrites the amplitude
sequence, touches nothing else (obspy detrend mutates `trace.data` in
place). -/
def detrend (t : Trace) : Trace := { t with data := detrendData t.data }

/-- The call `stream.taper(max_percentage=0.05, type='hann')`: rewrites the
amplitude sequence, touches nothing else. -/
def taper (ramp : ℕ → ℚ) (t : Trace) : Trace := { t with data := taperData ramp t.data }

/-- The Normalization Stage as performed by `read_seismic_data`: detrend
first (line 31), taper second (line 32). -/
def normalize (ramp : ℕ → ℚ) (t : Trace) : Trace := taper ramp (detrend t)

theorem detrendData_length (xs : List ℚ) : (detrendData xs).length = xs.length := by
  unfold detrendData
  split
  · rfl
  · rw [List.length_zipWith, List.length_map, List.length_range, min_self]

theorem taperFactors_length (ramp : ℕ → ℚ) (n : ℕ) : (taperFactors ramp n).length = n := by
  simp [taperFactors]

theorem taperData_length (ramp : ℕ → ℚ) (xs : List ℚ) :
    (taperData ramp xs).length = xs.length := by
  simp [taperData, taperFactors_length]

/-- C4: normalization applies detrend first and taper second, and rewrites
only the amplitude sequence: the stats record (network, station, location,
channel codes, start time, sampling rate), the sample count, and hence the
derived timestamp `start + i / sampling_rate` of every sample are unchanged. -/
theorem normalize_detrend_then_taper_and_frame (ramp : ℕ → ℚ) (t : Trace) :
    normalize ramp t = taper ramp (detrend t)
    ∧ (normalize ramp t).stats = t.stats
    ∧ (normalize ramp t).data.length = t.data.length
    ∧ traceTimes (normalize ramp t) = traceTimes t := by
  refine ⟨rfl, rfl, ?_, ?_⟩
  · simp [normalize, taper, detrend, taperData_length, detrendData_length]
  · unfold traceTimes
    simp [normalize, taper, detrend, taperData_length, detrendData_length]

/-- C5: on a trace with a single sample, normalization (detrend followed by
taper) is a no-op: detrend leaves length-one data unchanged and the taper
half-window length `int(0.05 * 1)` is zero, so every factor is 1.  Both
stages are total functions, so no trace length is an error. -/
theorem normalize_length_one_noop (ramp : ℕ → ℚ) (t : Trace)
    (h : t.data.length = 1) : normalize ramp t = t := by
  obtain ⟨x, hx⟩ := List.length_eq_one.mp h
  have hd : detrendData t.data = t.data := by
    unfold detrendData
    rw [if_pos (by rw [h])]
  have ht : taperData ramp t.data = t.data := by
    rw [hx]
    simp [taperData, taperFactors, taperLen, List.range_succ]
  cases t with
  | mk stats data =>
    simp only [normalize, taper, detrend] at *
    simp [hd, ht]

/-- Witness for C5 at a concrete one-sample trace. -/
theorem normalize_length_one_noop_witness :
    (Trace.mk ⟨"UW", "ABC", "", "EHZ", 0, 100⟩ [5]).data.length = 1
    ∧ normalize (fun _ => 0) (Trace.mk ⟨"UW", "ABC", "", "EHZ", 0, 100⟩ [5])
      = Trace.mk ⟨"UW", "ABC", "", "EHZ", 0, 100⟩ [5] :=
  ⟨rfl, normalize_length_one_noop (fun _ => 0) _ rfl⟩

/-! ### Sample Store: `insert_seismic_data_into_db` -/

/-- One persisted sample row: the parameter tuple bound by the INSERT
statement (lines 70-71). -/
structure Row where
  network : String
  station : String
  location : String
  channel : String
  timestamp : ℚ
  amplitude : ℚ
  deriving Repr, DecidableEq

/-- The rows built for one trace (lines 67-70): one row per sample, in
sample-index order, pairing `trace.times('timestamp')[i]` with
`trace.data[i]`. -/
def traceRows (t : Trace) : List Row :=
  List.zipWith (fun ts v =>
    { network := t.stats.network, station := t.stats.station,
      location := t.stats.location, channel := t.stats.channel,
      timestamp := ts, amplitude := v }) (traceTimes t) t.data

/-- `sorted(streams.keys())` at line 63 (Python string sort = code-point
lexicographic order, the order of `String`). -/
def sortedKeys (streams : Streams) : List String :=
  (streams.map Prod.fst).mergeSort

/-- Python dict lookup `streams[stream_name]` (line 64); the looked-up name
is always a key of the dict in the source, a missing name yields the empty
stream in the model. -/
def streamOf (streams : Streams) (k : String) : Stream :=
  match streams with
  | [] => []
  | (name, st) :: rest => if name = k then st else streamOf rest k

/-- The per-trace batches handed to `cursor.executemany` (lines 63-71), in
execution order: the outer loop walks file names in sorted order, the inner
loop walks the traces of that file's stream. -/
def traceBatches (streams : Streams) : List (List Row) :=
  (sortedKeys streams).flatMap (fun k => (streamOf streams k).map traceRows)

/-- The traces in insertion order: sorted file name, then trace order
within the stream. -/
def orderedTraces (streams : Streams) : List Trace :=
  (sortedKeys streams).flatMap (fun k => streamOf streams k)

/-- All rows inserted by one run, in insertion order. -/
def insertedRows (streams : Streams) : List Row :=
  (traceBatches streams).flatten

/-- Total sample count of a streams mapping: Σ over its traces of the
sample count. -/
def totalSamples (streams : Streams) : ℕ :=
  (((streams.flatMap (fun p => p.2)).map (fun t => t.data.length))).sum

/-- Column list of the CREATE TABLE statement (lines 48-58): column name
and declared type, in order. -/
def seismic_data_columns : List (String × String) :=
  [("id", "INTEGER PRIMARY KEY"), ("network", "TEXT"), ("station", "TEXT"),
   ("location", "TEXT"), ("channel", "TEXT"), ("timestamp", "TEXT"),
   ("amplitude", "REAL")]

/-- State of the SQLite database: the `seismic_data` table (its column list
when the table exists) and its committed rows. -/
structure DB where
  schema : Option (List (String × String))
  rows : List Row
  deriving Repr, DecidableEq

/-- `CREATE TABLE IF NOT EXISTS seismic_data (...)` (lines 48-58): creates
the table when absent, otherwise leaves the database untouched. -/
def createTableIfNotExists (db : DB) : DB :=
  match db.schema with
  | none => { schema := some seismic_data_columns, rows := db.rows }
  | some _ => db

/-- One `executemany` batch followed by `conn.commit()` (lines 71-72):
append the staged batch to the committed rows. -/
def commitBatch (db : DB) (batch : List Row) : DB :=
  { db with rows := db.rows ++ batch }

/-- The database states visible on disk during a run: the state after table
creation, then the state after each per-trace commit. -/
def commitStates (streams : Streams) (db : DB) : List DB :=
  (traceBatches streams).scanl commitBatch (createTableIfNotExists db)

/-- `insert_seismic_data_into_db`: ensure the table exists, then walk the
streams in sorted-file-name order inserting one batch per trace, committing
after each batch. -/
def insert_seismic_data_into_db (streams : Streams) (db : DB) : DB :=
  (traceBatches streams).foldl commitBatch (createTableIfNotExists db)

theorem traceRows_length (t : Trace) : (traceRows t).length = t.data.length := by
  simp [traceRows, traceTimes]

theorem foldl_commitBatch (bs : List (List Row)) (d : DB) :
    bs.foldl commitBatch d = { schema := d.schema, rows := d.rows ++ bs.flatten } := by
  induction bs generalizing d with
  | nil => simp [commitBatch]
  | cons b rest ih => simp [List.foldl_cons, ih, commitBatch, List.append_assoc]

theorem streamOf_eq_of_mem {streams : Streams} {k : String} {st : Stream}
    (h : (streams.map Prod.fst).Nodup) (hm : (k, st) ∈ streams) :
    streamOf streams k = st := by
  induction streams with
  | nil => cases hm
  | cons p rest ih =>
    obtain ⟨name, s⟩ := p
    simp only [List.map_cons, List.nodup_cons] at h
    rcases List.mem_cons.mp hm with heq | hrest
    · cases heq
      simp [streamOf]
    · have hne : name ≠ k := by
        intro hk
        exact h.1 (hk ▸ List.mem_map_of_mem Prod.fst hrest)
      simp [streamOf, hne, ih h.2 hrest]

theorem streamOf_eq_nil_of_not_mem {streams : Streams} {k : String}
    (hk : k ∉ streams.map Prod.fst) : streamOf streams k = [] := by
  induction streams with
  | nil => rfl
  | cons p rest ih =>
    obtain ⟨name, s⟩ := p
    simp only [List.map_cons, List.mem_cons] at hk
    push_neg at hk
    have hne : name ≠ k := fun he => hk.1 he.symm
    simp [streamOf, hne, ih hk.2]

theorem streamOf_eq_of_perm {streams streams' : Streams}
    (h : (streams.map Prod.fst).Nodup) (hp : streams.Perm streams') (k : String) :
    streamOf streams k = streamOf streams' k := by
  have h' : (streams'.map Prod.fst).Nodup := ((hp.map Prod.fst).nodup_iff).mp h
  by_cases hk : k ∈ streams.map Prod.fst
  · obtain ⟨⟨k0, st⟩, hmem, hfst⟩ := List.mem_map.mp hk
    cases hfst
    rw [streamOf_eq_of_mem h hmem, streamOf_eq_of_mem h' (hp.mem_iff.mp hmem)]
  · rw [streamOf_eq_nil_of_not_mem hk,
      streamOf_eq_nil_of_not_mem (fun hc => hk (((hp.map Prod.fst).mem_iff).mpr hc))]

theorem sortedKeys_perm (streams : Streams) :
    (sortedKeys streams).Perm (streams.map Prod.fst) :=
  List.mergeSort_perm _ _

theorem sortedKeys_sorted (streams : Streams) :
    (sortedKeys streams).Sorted (· ≤ ·) :=
  List.sorted_mergeSort' _

theorem sortedKeys_eq_of_perm {streams streams' : Streams}
    (hp : streams.Perm streams') : sortedKeys streams = sortedKeys streams' :=
  List.eq_of_perm_of_sorted
    ((sortedKeys_perm streams).trans ((hp.map Prod.fst).trans (sortedKeys_perm streams').symm))
    (sortedKeys_sorted streams) (sortedKeys_sorted streams')

theorem flatMap_streamOf_keys {streams : Streams}
    (h : (streams.map Prod.fst).Nodup) :
    (streams.map Prod.fst).flatMap (fun k => streamOf streams k)
      = streams.flatMap (fun p => p.2) := by
  induction streams with
  | nil => rfl
  | cons p rest ih =>
    obtain ⟨name, st⟩ := p
    simp only [List.map_cons, List.nodup_cons] at h
    simp only [List.map_cons, List.flatMap_cons]
    congr 1
    · simp [streamOf]
    · rw [← ih h.2]
      refine List.flatMap_congr (fun k hk => ?_)
      have hne : name ≠ k := fun he => h.1 (he ▸ hk)
      simp [streamOf, hne]

theorem orderedTraces_perm {streams : Streams}
    (h : (streams.map Prod.fst).Nodup) :
    (orderedTraces streams).Perm (streams.flatMap (fun p => p.2)) := by
  have h1 : (orderedTraces streams).Perm
      ((streams.map Prod.fst).flatMap (fun k => streamOf streams k)) :=
    (sortedKeys_perm streams).flatMap_right _
  rw [flatMap_streamOf_keys h] at h1
  exact h1

theorem insertedRows_eq_flatMap (streams : Streams) :
    insertedRows streams = (orderedTraces streams).flatMap traceRows := by
  simp [insertedRows, traceBatches, orderedTraces, List.flatMap_assoc,
    List.flatMap_def, Function.comp_def]

theorem insertedRows_length {streams : Streams}
    (h : (streams.map Prod.fst).Nodup) :
    (insertedRows streams).length = totalSamples streams := by
  rw [insertedRows_eq_flatMap, List.length_flatMap, totalSamples]
  have hperm := (orderedTraces_perm h).map (fun t => t.data.length)
  rw [← hperm.sum_eq]
  congr 1
  simp [Function.comp_def, traceRows_length]

/-- C1: one bulk-load run appends exactly one row per sample — `Σ nᵢ` rows
for K traces with `n₁..nₖ` samples — to the committed rows, and a second
run against the same store appends the same rows again: the INSERT has no
uniqueness constraint and no deduplication, so the row list after two runs
is the first-run suffix twice over. -/
theorem bulk_load_row_count (streams : Streams) (db : DB)
    (h : (streams.map Prod.fst).Nodup) :
    (insert_seismic_data_into_db streams db).rows
      = db.rows ++ insertedRows streams
    ∧ (insert_seismic_data_into_db streams
        (insert_seismic_data_into_db streams db)).rows
      = db.rows ++ insertedRows streams ++ insertedRows streams
    ∧ (insertedRows streams).length = totalSamples streams := by
  refine ⟨?_, ?_, insertedRows_length h⟩
  · rw [insert_seismic_data_into_db, foldl_commitBatch]
    cases hd : db.schema <;> simp [createTableIfNotExists, hd, insertedRows]
  · rw [insert_seismic_data_into_db, foldl_commitBatch,
      insert_seismic_data_into_db, foldl_commitBatch]
    cases hd : db.schema <;>
      simp [createTableIfNotExists, hd, insertedRows, List.append_assoc]

/-- Concrete trace for witnesses: station ABC, 3 samples at 1 Hz. -/
def wTrace1 : Trace := ⟨⟨"UW", "ABC", "", "EHZ", 10, 1⟩, [1, 2, 3]⟩

/-- Concrete trace for witnesses: station DEF, 2 samples at 2 Hz. -/
def wTrace2 : Trace := ⟨⟨"UW", "DEF", "", "EHN", 20, 2⟩, [4, 5]⟩

/-- Concrete streams mapping for witnesses, listed in non-sorted key order. -/
def wStreams : Streams := [("B.mseed", [wTrace2]), ("A.mseed", [wTrace1])]

/-- The same mapping with its entries listed in the other order. -/
def wStreamsSorted : Streams := [("A.mseed", [wTrace1]), ("B.mseed", [wTrace2])]

/-- Witness for C1 at a concrete two-file mapping with 3 + 2 samples. -/
theorem bulk_load_row_count_witness :
    (wStreams.map Prod.fst).Nodup
    ∧ ((insert_seismic_data_into_db wStreams (DB.mk none [])).rows
        = [] ++ insertedRows wStreams
      ∧ (insert_seismic_data_into_db wStreams
          (insert_seismic_data_into_db wStreams (DB.mk none []))).rows
        = [] ++ insertedRows wStreams ++ insertedRows wStreams
      ∧ (insertedRows wStreams).length = totalSamples wStreams) :=
  ⟨by decide, bulk_load_row_count wStreams (DB.mk none []) (by decide)⟩

/-- C3: the bulk load iterates the streams in ascending file-name order —
independently of the order in which the mapping holds its entries — and
inserts, per file, each trace's rows in trace order, and per trace one row
per sample in index order: the inserted row list is the flattening of
(sorted file name, trace order, sample order), and any reordering of the
mapping's entries produces the same row list. -/
theorem insertion_order_sorted_by_file_name (streams : Streams)
    (h : (streams.map Prod.fst).Nodup) :
    insertedRows streams
      = (sortedKeys streams).flatMap (fun k => (streamOf streams k).flatMap traceRows)
    ∧ (sortedKeys streams).Sorted (· ≤ ·)
    ∧ (sortedKeys streams).Perm (streams.map Prod.fst)
    ∧ ∀ streams' : Streams, streams.Perm streams' →
        insertedRows streams' = insertedRows streams := by
  refine ⟨?_, sortedKeys_sorted streams, sortedKeys_perm streams, ?_⟩
  · rw [insertedRows_eq_flatMap, orderedTraces, List.flatMap_assoc]
  · intro s' hp
    have hb : traceBatches s' = traceBatches streams := by
      unfold traceBatches
      rw [← sortedKeys_eq_of_perm hp]
      exact List.flatMap_congr (fun k _ => by rw [← streamOf_eq_of_perm h hp k])
    simp [insertedRows, hb]

/-- Witness for C3: permuting the two entries of the concrete mapping
leaves the inserted row list unchanged. -/
theorem insertion_order_sorted_by_file_name_witness :
    (wStreams.map Prod.fst).Nodup
    ∧ wStreams.Perm wStreamsSorted
    ∧ insertedRows wStreamsSorted = insertedRows wStreams :=
  ⟨by decide, List.Perm.swap _ _ _,
    (insertion_order_sorted_by_file_name wStreams (by decide)).2.2.2
      wStreamsSorted (List.Perm.swap _ _ _)⟩

theorem scanl_commitBatch_rows (bs : List (List Row)) (d : DB) :
    ∀ k, k ≤ bs.length →
    ((bs.scanl commitBatch d).getD k (DB.mk none [])).rows
      = d.rows ++ (bs.take k).flatten := by
  induction bs generalizing d with
  | nil =>
    intro k hk
    have : k = 0 := Nat.le_zero.mp hk
    subst this
    simp [List.scanl_nil]
  | cons b rest ih =>
    intro k hk
    cases k with
    | zero => simp [List.scanl_cons]
    | succ j =>
      have hj : j ≤ rest.length := by simpa using hk
      simp only [List.scanl_cons, List.singleton_append, List.getD_cons_succ,
        List.take_succ_cons, List.flatten_cons]
      rw [ih (commitBatch d b) j hj]
      simp [commitBatch, List.append_assoc]

theorem foldl_eq_scanl_getD (bs : List (List Row)) (d : DB) :
    bs.foldl commitBatch d = (bs.scanl commitBatch d).getD bs.length (DB.mk none []) := by
  induction bs generalizing d with
  | nil => simp [List.scanl_nil]
  | cons b rest ih =>
    simp only [List.foldl_cons, List.scanl_cons, List.length_cons,
      List.getD_cons_succ]
    exact ih (commitBatch d b)

/-- C6: the bulk load stages each trace's rows as one batch and commits once
per trace: the batch sequence is exactly the per-trace row lists in
insertion order, the run passes through one database state per commit (plus
the initial state), the state after `k` commits holds precisely the first
`k` whole traces' rows appended to the prior contents — so an interruption
between commits never exposes a partially inserted trace — and the final
loop state is the state after the last per-trace commit (no additional
whole-run commit). -/
theorem per_trace_commit_granularity (streams : Streams) (db : DB) :
    traceBatches streams = (orderedTraces streams).map traceRows
    ∧ (commitStates streams db).length = (traceBatches streams).length + 1
    ∧ (∀ k, k ≤ (traceBatches streams).length →
        ((commitStates streams db).getD k (DB.mk none [])).rows
          = (createTableIfNotExists db).rows ++ ((traceBatches streams).take k).flatten)
    ∧ insert_seismic_data_into_db streams db
        = (commitStates streams db).getD (traceBatches streams).length (DB.mk none []) := by
  refine ⟨?_, ?_, ?_, ?_⟩
  · rw [traceBatches, orderedTraces, List.map_flatMap]
  · simp [commitStates, List.length_scanl]
  · exact scanl_commitBatch_rows (traceBatches streams) (createTableIfNotExists db)
  · exact foldl_eq_scanl_getD (traceBatches streams) (createTableIfNotExists db)

/-- Witness for C6: after the first commit of the concrete run, the store
holds exactly the first trace's rows. -/
theorem per_trace_commit_granularity_witness :
    1 ≤ (traceBatches wStreams).length
    ∧ ((commitStates wStreams (DB.mk none [])).getD 1 (DB.mk none [])).rows
        = (createTableIfNotExists (DB.mk none [])).rows
          ++ ((traceBatches wStreams).take 1).flatten := by
  have hlen : (traceBatches wStreams).length = 2 := by
    have h1 : traceBatches wStreams = (orderedTraces wStreams).map traceRows :=
      (per_trace_commit_granularity wStreams (DB.mk none [])).1
    have h2 := (orderedTraces_perm
      (show (wStreams.map Prod.fst).Nodup by decide)).length_eq
    simp only [h1, List.length_map, h2]
    decide
  refine ⟨by omega, ?_⟩
  exact (per_trace_commit_granularity wStreams (DB.mk none [])).2.2.1 1 (by omega)

/-- C7: schema initialization is idempotent and non-destructive: running
`CREATE TABLE IF NOT EXISTS` twice equals running it once, it never touches
the committed rows, it is the identity when the table already exists, when
the table is absent it creates exactly the columns
(id, network, station, location, channel, timestamp, amplitude), and a
bulk-load run against any existing store appends its rows to the existing
contents rather than replacing them. -/
theorem schema_init_idempotent_and_appends (db : DB) :
    createTableIfNotExists (createTableIfNotExists db) = createTableIfNotExists db
    ∧ (createTableIfNotExists db).rows = db.rows
    ∧ (∀ s, db.schema = some s → createTableIfNotExists db = db)
    ∧ (db.schema = none →
        (createTableIfNotExists db).schema = some seismic_data_columns)
    ∧ seismic_data_columns.map Prod.fst
        = ["id", "network", "station", "location", "channel", "timestamp", "amplitude"]
    ∧ ∀ streams : Streams,
        (insert_seismic_data_into_db streams db).rows = db.rows ++ insertedRows streams := by
  refine ⟨?_, ?_, ?_, ?_, by decide, ?_⟩
  · cases hd : db.schema <;> simp [createTableIfNotExists, hd]
  · cases hd : db.schema <;> simp [createTableIfNotExists, hd]
  · intro s hs
    cases db with
    | mk schema rows => cases hs; simp [createTableIfNotExists]
  · intro hs
    simp [createTableIfNotExists, hs]
  · intro streams
    rw [insert_seismic_data_into_db, foldl_commitBatch]
    cases hd : db.schema <;> simp [createTableIfNotExists, hd, insertedRows]

/-- Witness for C7: re-initialization against a store whose table already
exists is the identity. -/
theorem schema_init_idempotent_and_appends_witness :
    (DB.mk (some seismic_data_columns) []).schema = some seismic_data_columns
    ∧ createTableIfNotExists (DB.mk (some seismic_data_columns) [])
      = DB.mk (some seismic_data_columns) [] :=
  ⟨rfl, (schema_init_idempotent_and_appends (DB.mk (some seismic_data_columns) [])).2.2.1
    seismic_data_columns rfl⟩

/-! ### Timestamp storage class (C2) -/

/-- Values bindable through the sqlite3 parameter interface; the source
binds Python strings for the four code columns and floats (numpy float64,
a subclass of Python float) for timestamp and amplitude. -/
inductive SqlValue
  | nullV
  | intV (i : ℤ)
  | realV (q : ℚ)
  | textV (s : String)
  deriving Repr, DecidableEq

/-- Storage classes of SQLite. -/
inductive StorageClass
  | nullC
  | integerC
  | realC
  | textC
  deriving Repr, DecidableEq

/-- Column type affinities of SQLite. -/
inductive Affinity
  | integerA
  | textA
  | blobA
  | realA
  | numericA
  deriving Repr, DecidableEq

/-- Character-list test: does the list start with the given pattern. -/
def leadsWith : List Char → List Char → Bool
  | _, [] => true
  | [], _ :: _ => false
  | c :: cs, p :: ps => c = p && leadsWith cs ps

/-- Character-list substring test. -/
def hasSub : List Char → List Char → Bool
  | _, [] => true
  | [], _ :: _ => false
  | c :: rest, pat => leadsWith (c :: rest) pat || hasSub rest pat

/-- Substring test used by the affinity rules. -/
def containsSub (s pat : String) : Bool := hasSub s.toList pat.toList

/-- Modelled from the documented SQLite rules of column type affinity
("Datatypes In SQLite", rule set 3.1), applied to the upper-case declared
types appearing in this schema: a declared type containing "INT" gets
INTEGER affinity; else one containing "CHAR", "CLOB" or "TEXT" gets TEXT
affinity; else an empty one or one containing "BLOB" gets BLOB affinity;
else one containing "REAL", "FLOA" or "DOUB" gets REAL affinity; anything
else gets NUMERIC affinity. -/
def typeAffinity (decl : String) : Affinity :=
  if containsSub decl "INT" then .integerA
  else if containsSub decl "CHAR" || containsSub decl "CLOB" || containsSub decl "TEXT" then
    .textA
  else if decl = "" || containsSub decl "BLOB" then .blobA
  else if containsSub decl "REAL" || containsSub decl "FLOA" || containsSub decl "DOUB" then
    .realA
  else .numericA

/-- Modelled from the documented SQLite storage behavior of a column with
TEXT affinity: it stores all data using storage classes NULL, TEXT or BLOB,
and numeric data inserted into it is converted into text form before being
stored. -/
def storedClassTextAffinity (v : SqlValue) : StorageClass :=
  match v with
  | .nullV => .nullC
  | .intV _ => .textC
  | .realV _ => .textC
  | .textV _ => .textC

/-- Modelled from SQLite's text rendering of a whole-valued real number:
the integer digits followed by ".0" (a real 999 is stored as the text
"999.0" under TEXT affinity). -/
def renderWholeReal (n : ℕ) : String := toString n ++ ".0"

/-- The six parameters bound for one row by the INSERT statement
(lines 70-71): the four code strings, then the numeric epoch timestamp from
`trace.times('timestamp')`, then the numeric amplitude. -/
def bindRow (r : Row) : List SqlValue :=
  [.textV r.network, .textV r.station, .textV r.location, .textV r.channel,
   .realV r.timestamp, .realV r.amplitude]

/-- C2 fails on the code: the CREATE TABLE statement declares the timestamp
column with type TEXT, which carries TEXT affinity, so although the bound
timestamp parameter is a numeric epoch-seconds real, SQLite stores it
converted to text, and the stored values compare in byte (lexicographic)
order — which disagrees with numeric order already at 999 versus 1000:
numerically 999 < 1000, but as stored text "1000.0" sorts before "999.0". -/
theorem timestamp_stored_as_text_not_numeric :
    (seismic_data_columns.lookup "timestamp").getD "" = "TEXT"
    ∧ typeAffinity "TEXT" = Affinity.textA
    ∧ (∀ r : Row, (bindRow r).getD 4 .nullV = SqlValue.realV r.timestamp)
    ∧ storedClassTextAffinity (SqlValue.realV 999) = StorageClass.textC
    ∧ storedClassTextAffinity (SqlValue.realV 999) ≠ StorageClass.realC
    ∧ renderWholeReal 999 = "999.0"
    ∧ renderWholeReal 1000 = "1000.0"
    ∧ (999 : ℚ) < 1000
    ∧ ("1000.0" : String) < "999.0" := by
  refine ⟨by decide, by decide, fun r => rfl, rfl, by decide, by decide, by decide,
    by norm_num, ?_⟩
  exact String.lt_iff_toList_lt.mpr (by decide)

/-! ### Station map: `create_map` (C8, C10) -/

/-- Geographic coordinates returned by the station-lookup collaborator. -/
structure StationLoc where
  latitude : ℚ
  longitude : ℚ
  deriving Repr, DecidableEq

/-- Station codes collected from the streams (lines 108-112): the loop
walks the streams in sorted file-name order and adds every trace's station
code to a set. -/
def dataStations (streams : Streams) : Finset String :=
  (orderedTraces streams).foldl (fun acc t => insert t.stats.station acc) ∅

/-- The hard-coded extra stations (line 113). -/
def other_stations : Finset String := {"HOA", "SUG"}

/-- The station codes for which `create_map` requests a location lookup:
the union iterated at line 118. -/
def lookupRequests (streams : Streams) : Finset String :=
  dataStations streams ∪ other_stations

/-- Result of one `client.get_stations(station=sta, level='station')` call
(lines 120-123): either an inventory, flattened to the
(station code, location) pairs the source reads out of it (lines 124-129),
or a raised exception, carried as its message. -/
abbrev LookupResult := Except String (List (String × StationLoc))

/-- Python dict assignment `station_info[station.code] = {...}` (line 126):
overwrite the value when the key exists, otherwise append the entry. -/
def dictInsert (m : List (String × StationLoc)) (k : String) (v : StationLoc) :
    List (String × StationLoc) :=
  match m with
  | [] => [(k, v)]
  | (k0, v0) :: rest =>
    if k0 = k then (k0, v) :: rest else (k0, v0) :: dictInsert rest k v

/-- One iteration of the lookup loop (lines 118-131): on success every
returned pair is written into `station_info`; on a raised exception the
error is logged (`logging.exception`, line 131) and the loop moves on —
nothing propagates. -/
def processStation (lookup : String → LookupResult)
    (acc : List (String × StationLoc) × List String) (sta : String) :
    List (String × StationLoc) × List String :=
  match lookup sta with
  | .ok pairs => (pairs.foldl (fun m p => dictInsert m p.1 p.2) acc.1, acc.2)
  | .error e => (acc.1, acc.2 ++ [e])

/-- The whole lookup loop: returns the `station_info` mapping and the log
of recovered errors.  A total function: a per-station failure never aborts
the batch. -/
def build_station_info (lookup : String → LookupResult) (stas : List String) :
    List (String × StationLoc) × List String :=
  stas.foldl (processStation lookup) ([], [])

theorem dictInsert_keys (m : List (String × StationLoc)) (k : String)
    (v : StationLoc) (q : String) :
    q ∈ (dictInsert m k v).map Prod.fst ↔ q ∈ m.map Prod.fst ∨ q = k := by
  induction m with
  | nil => simp [dictInsert]
  | cons p rest ih =>
    obtain ⟨k0, v0⟩ := p
    by_cases hk : k0 = k
    · subst hk
      simp [dictInsert, or_assoc, or_comm, or_left_comm]
    · simp only [dictInsert, if_neg hk, List.map_cons, List.mem_cons, ih]
      tauto

theorem foldl_dictInsert_keys (pairs : List (String × StationLoc))
    (m : List (String × StationLoc)) (q : String) :
    q ∈ ((pairs.foldl (fun m p => dictInsert m p.1 p.2) m).map Prod.fst) ↔
      q ∈ m.map Prod.fst ∨ q ∈ pairs.map Prod.fst := by
  induction pairs generalizing m with
  | nil => simp
  | cons p ps ih =>
    rw [List.foldl_cons, ih, dictInsert_keys]
    simp only [List.map_cons, List.mem_cons]
    tauto

theorem build_station_info_keys (lookup : String → LookupResult)
    (stas : List String) :
    ∀ (acc : List (String × StationLoc) × List String) (q : String),
    q ∈ ((stas.foldl (processStation lookup) acc).1.map Prod.fst) ↔
      (q ∈ acc.1.map Prod.fst
        ∨ ∃ s ∈ stas, ∃ pairs, lookup s = Except.ok pairs ∧ q ∈ pairs.map Prod.fst) := by
  induction stas with
  | nil => intro acc q; simp
  | cons s ss ih =>
    intro acc q
    rw [List.foldl_cons, ih]
    cases hl : lookup s with
    | ok pairs =>
      simp only [processStation, hl, foldl_dictInsert_keys]
      constructor
      · rintro ((hq | hq) | ⟨s', hs', hc⟩)
        · exact Or.inl hq
        · exact Or.inr ⟨s, List.mem_cons_self s ss, pairs, hl, hq⟩
        · exact Or.inr ⟨s', List.mem_cons_of_mem s hs', hc⟩
      · rintro (hq | ⟨s', hs', pairs', hok', hq⟩)
        · exact Or.inl (Or.inl hq)
        · rcases List.mem_cons.mp hs' with rfl | hss
          · rw [hl] at hok'
            cases hok'
            exact Or.inl (Or.inr hq)
          · exact Or.inr ⟨s', hss, pairs', hok', hq⟩
    | error e =>
      simp only [processStation, hl]
      constructor
      · rintro (hq | ⟨s', hs', hc⟩)
        · exact Or.inl hq
        · exact Or.inr ⟨s', List.mem_cons_of_mem s hs', hc⟩
      · rintro (hq | ⟨s', hs', pairs', hok', hq⟩)
        · exact Or.inl hq
        · rcases List.mem_cons.mp hs' with rfl | hss
          · rw [hl] at hok'
            cases hok'
          · exact Or.inr ⟨s', hss, pairs', hok', hq⟩

theorem build_station_info_log (lookup : String → LookupResult)
    (stas : List String) :
    ∀ (acc : List (String × StationLoc) × List String) (e : String),
    e ∈ (stas.foldl (processStation lookup) acc).2 ↔
      (e ∈ acc.2 ∨ ∃ s ∈ stas, lookup s = Except.error e) := by
  induction stas with
  | nil => intro acc e; simp
  | cons s ss ih =>
    intro acc e
    rw [List.foldl_cons, ih]
    cases hl : lookup s with
    | ok pairs =>
      simp only [processStation, hl]
      constructor
      · rintro (he | ⟨s', hs', he⟩)
        · exact Or.inl he
        · exact Or.inr ⟨s', List.mem_cons_of_mem s hs', he⟩
      · rintro (he | ⟨s', hs', he⟩)
        · exact Or.inl he
        · rcases List.mem_cons.mp hs' with rfl | hss
          · rw [hl] at he
            cases he
          · exact Or.inr ⟨s', hss, he⟩
    | error e0 =>
      simp only [processStation, hl, List.mem_append, List.mem_singleton]
      constructor
      · rintro ((he | he) | ⟨s', hs', he⟩)
        · exact Or.inl he
        · exact Or.inr ⟨s, List.mem_cons_self s ss, by rw [hl, he]⟩
        · exact Or.inr ⟨s', List.mem_cons_of_mem s hs', he⟩
      · rintro (he | ⟨s', hs', he⟩)
        · exact Or.inl (Or.inl he)
        · rcases List.mem_cons.mp hs' with rfl | hss
          · rw [hl] at he
            injection he with h0
            exact Or.inl (Or.inr h0.symm)
          · exact Or.inr ⟨s', hss, he⟩

/-- C8: a station whose location lookup raises is recovered locally: its
error message is logged, the station's code is absent from the plotted
location map (given that no other station's response reports that code, as
the service filters by the queried code), the loop is a total function so
no exception propagates past the lookup step, and every pair returned by
the remaining stations' successful lookups is still plotted. -/
theorem station_lookup_failure_recovered (lookup : String → LookupResult)
    (stas : List String) (bad e : String)
    (hmem : bad ∈ stas) (hbad : lookup bad = Except.error e)
    (hnoalias : ∀ s ∈ stas, ∀ pairs, lookup s = Except.ok pairs →
        bad ∉ pairs.map Prod.fst) :
    e ∈ (build_station_info lookup stas).2
    ∧ bad ∉ (build_station_info lookup stas).1.map Prod.fst
    ∧ ∀ s ∈ stas, ∀ pairs, lookup s = Except.ok pairs →
        ∀ q ∈ pairs.map Prod.fst,
          q ∈ (build_station_info lookup stas).1.map Prod.fst := by
  refine ⟨?_, ?_, ?_⟩
  · rw [build_station_info, build_station_info_log]
    exact Or.inr ⟨bad, hmem, hbad⟩
  · rw [build_station_info, build_station_info_keys]
    rintro (hq | ⟨s, hs, pairs, hok, hq⟩)
    · simp at hq
    · exact hnoalias s hs pairs hok hq
  · intro s hs pairs hok q hq
    rw [build_station_info, build_station_info_keys]
    exact Or.inr ⟨s, hs, pairs, hok, hq⟩

/-- Lookup service for the C8 witness: fails for ZZZ, succeeds for any
other station with that station's own code. -/
def wLookup : String → LookupResult := fun s =>
  if s = "ZZZ" then .error "no data for ZZZ" else .ok [(s, ⟨46, -122⟩)]

/-- Witness for C8: with stations ABC and ZZZ and a service that fails on
ZZZ, the error is logged and ZZZ is absent from the plotted map. -/
theorem station_lookup_failure_recovered_witness :
    "no data for ZZZ" ∈ (build_station_info wLookup ["ABC", "ZZZ"]).2
    ∧ "ZZZ" ∉ (build_station_info wLookup ["ABC", "ZZZ"]).1.map Prod.fst := by
  have h := station_lookup_failure_recovered wLookup ["ABC", "ZZZ"] "ZZZ"
    "no data for ZZZ" (by simp) (by simp [wLookup]) ?_
  · exact ⟨h.1, h.2.1⟩
  · intro s hs pairs hok
    rcases List.mem_cons.mp hs with rfl | hs2
    · rw [wLookup] at hok
      rw [if_neg (by decide : ¬ ("ABC" : String) = "ZZZ")] at hok
      cases hok
      simp
    · rcases List.mem_cons.mp hs2 with rfl | h3
      · rw [wLookup] at hok
        simp at hok
      · cases h3

/-- The two marker styles drawn at lines 151-154. -/
inductive Marker
  | blueTriangle
  | blackCircle
  deriving Repr, DecidableEq

/-- Marker selection (lines 151-154): a plotted station that belongs to the
data-station set gets a blue triangle, any other plotted station a black
circle. -/
def markerFor (stations : Finset String) (s : String) : Marker :=
  if s ∈ stations then .blueTriangle else .blackCircle

/-- The markers drawn by the plot loop (lines 147-155): one marker per
entry of `station_info`. -/
def plotMarkers (streams : Streams) (info : List (String × StationLoc)) :
    List (String × Marker) :=
  info.map (fun p => (p.1, markerFor (dataStations streams) p.1))

theorem foldl_insert_station_mem (ts : List Trace) (acc : Finset String)
    (s : String) :
    s ∈ ts.foldl (fun a t => insert t.stats.station a) acc ↔
      s ∈ acc ∨ ∃ t ∈ ts, s = t.stats.station := by
  induction ts generalizing acc with
  | nil => simp
  | cons t ts ih =>
    rw [List.foldl_cons, ih]
    simp only [Finset.mem_insert, List.exists_mem_cons_iff]
    tauto

theorem mem_dataStations {streams : Streams}
    (h : (streams.map Prod.fst).Nodup) (s : String) :
    s ∈ dataStations streams ↔
      ∃ t ∈ streams.flatMap (fun p => p.2), s = t.stats.station := by
  rw [dataStations, foldl_insert_station_mem]
  simp only [Finset.not_mem_empty, false_or]
  constructor
  · rintro ⟨t, ht, hs⟩
    exact ⟨t, (orderedTraces_perm h).mem_iff.mp ht, hs⟩
  · rintro ⟨t, ht, hs⟩
    exact ⟨t, (orderedTraces_perm h).mem_iff.mpr ht, hs⟩

/-- C10: map rendering requests location lookups for exactly the union of
the station codes occurring in the streams' traces with the hard-coded set
{HOA, SUG}; every plotted station that occurs in the data is drawn as a
blue triangle, and every plotted station that does not occur in the data
(the resolved hard-coded extras) is drawn as a black circle. -/
theorem map_requests_union_and_markers (streams : Streams)
    (h : (streams.map Prod.fst).Nodup) :
    (∀ s, s ∈ lookupRequests streams ↔
      ((∃ t ∈ streams.flatMap (fun p => p.2), s = t.stats.station)
        ∨ s = "HOA" ∨ s = "SUG"))
    ∧ ∀ (info : List (String × StationLoc)) (s : String) (m : Marker),
        (s, m) ∈ plotMarkers streams info →
        ((m = Marker.blueTriangle ↔
            ∃ t ∈ streams.flatMap (fun p => p.2), s = t.stats.station)
          ∧ (m = Marker.blackCircle ↔
            ¬ ∃ t ∈ streams.flatMap (fun p => p.2), s = t.stats.station)) := by
  constructor
  · intro s
    rw [lookupRequests, Finset.mem_union, mem_dataStations h, other_stations]
    simp
  · intro info s m hm
    simp only [plotMarkers, List.mem_map] at hm
    obtain ⟨p, hp, heq⟩ := hm
    injection heq with h1 h2
    subst h1
    subst h2
    by_cases hd : p.1 ∈ dataStations streams
    · have hd' := (mem_dataStations h p.1).mp hd
      unfold markerFor
      rw [if_pos hd]
      exact ⟨⟨fun _ => hd', fun _ => rfl⟩,
        ⟨fun hc => Marker.noConfusion hc, fun hc => (hc hd').elim⟩⟩
    · have hd' : ¬ ∃ t ∈ streams.flatMap (fun p => p.2), p.1 = t.stats.station :=
        fun hc => hd ((mem_dataStations h p.1).mpr hc)
      unfold markerFor
      rw [if_neg hd]
      exact ⟨⟨fun hc => Marker.noConfusion hc, fun hc => (hd' hc).elim⟩,
        ⟨fun _ => hd', fun _ => rfl⟩⟩

/-- Witness for C10: the hard-coded station HOA is among the lookup
requests of the concrete mapping. -/
theorem map_requests_union_and_markers_witness :
    (wStreams.map Prod.fst).Nodup ∧ "HOA" ∈ lookupRequests wStreams :=
  ⟨by decide, ((map_requests_union_and_markers wStreams (by decide)).1 "HOA").mpr
    (Or.inr (Or.inl rfl))⟩

/-! ### Reader and helicorder (C9) -/

/-- One directory entry as seen by `read_seismic_data` (lines 23-35): its
name, whether it is a regular file, and the Stream the external waveform
library decodes from it. -/
structure DirEntry where
  name : String
  isFile : Bool
  decoded : Stream
  deriving Repr, DecidableEq

/-- `file_path.suffix == '.mseed'` (line 26): pathlib reports the
extension `.mseed` exactly when the name ends in ".mseed" with a nonempty
stem before the dot. -/
def hasMseedExt (name : String) : Bool :=
  name.endsWith ".mseed" && decide (6 < name.length)

/-- `read_seismic_data` (lines 19-36): for every regular directory entry
whose name carries the `.mseed` extension, decode it and normalize every
trace of its stream (detrend, then taper), keyed by file name.  The
iteration order is the filesystem's (`entries` order). -/
def read_seismic_data (ramp : ℕ → ℚ) (entries : List DirEntry) : Streams :=
  entries.foldl (fun acc e =>
    if e.isFile && hasMseedExt e.name then
      acc ++ [(e.name, e.decoded.map (normalize ramp))]
    else acc) []

/-- Modelled from matplotlib's documented subplot-grid contract: the number
of rows passed to `plt.subplots` must be a positive integer, and a
nonpositive count raises `ValueError`.  `create_helicorder` (line 89)
passes `nrows=len(streams)`. -/
def subplots_rows (nrows : ℕ) : Except String ℕ :=
  if nrows = 0 then Except.error "Number of rows must be a positive integer"
  else Except.ok nrows

/-- `create_helicorder` (lines 85-102) up to axis allocation: one axis row
per stream, the i-th axis (in sorted file-name order) drawing the i-th
stream.  Returns the file name drawn on each axis, or the allocation
error. -/
def create_helicorder (streams : Streams) : Except String (List String) :=
  match subplots_rows streams.length with
  | Except.error e => Except.error e
  | Except.ok _ => Except.ok (sortedKeys streams)

/-- C9 against the code: ingesting an empty directory does produce the
empty streams mapping, and loading it creates the `seismic_data` table with
zero rows — but chart rendering over the resulting zero streams is NOT
handled: `create_helicorder` requests a zero-row axis grid, which is an
allocation error, instead of completing without error as the claim
states. -/
theorem empty_directory_zero_rows_but_helicorder_errors (ramp : ℕ → ℚ) :
    read_seismic_data ramp [] = []
    ∧ insert_seismic_data_into_db [] (DB.mk none [])
        = DB.mk (some seismic_data_columns) []
    ∧ create_helicorder [] = Except.error "Number of rows must be a positive integer" := by
  refine ⟨rfl, ?_, rfl⟩
  have hb : traceBatches ([] : Streams) = [] := by
    simp [traceBatches, sortedKeys, List.mergeSort_nil]
  rw [insert_seismic_data_into_db, hb]
  rfl

end SeismicData
